import Mathlib

/-!
Verification development for the UniMelb room-booking agent
(`app/booking_agent.py`).  The Python source is shallowly embedded below:
pure helper functions become Lean functions, the stateful
`BookingSession` / `chat_loop` pair becomes an explicit state type with a
step function, and the external OpenAI extractor call is passed in as an
`Except`-valued argument (it is performed once per turn; the behaviour of the
turn is a pure function of its result).

Dates are modelled as day counts from a fixed Monday epoch, so
`weekday(d) = d % 7` with `0 = Monday` exactly as the Python
`date.weekday()`; the Melbourne clock `_mel_now()` becomes an explicit
`today : Nat` parameter (the source reads it from a fixed reference time
zone, so the behaviour of a turn is deterministic given the clock).
-/

namespace BookingAgent

/-- Character-list prefix test, `a == b`-wise; used to embed the Python
substring operator `in`. -/
def isPrefixOfChars : List Char → List Char → Bool
  | [], _ => true
  | _ :: _, [] => false
  | a :: as, b :: bs => a == b && isPrefixOfChars as bs

/-- Does `needle` occur contiguously inside `hay`?  (Helper for
`strContains`.) -/
def containsAux (needle : List Char) : List Char → Bool
  | [] => needle.isEmpty
  | b :: bs => isPrefixOfChars needle (b :: bs) || containsAux needle bs

/-- Embedding of the Python substring test `needle in hay` on strings. -/
def strContains (hay needle : String) : Bool :=
  containsAux needle.data hay.data

/-- Embedding of the Python `str.lower()` (ASCII case folding; the inputs in the source contain no cased non-ASCII characters). -/
def strLower (s : String) : String :=
  String.mk (s.data.map Char.toLower)

/-- Embedding of the Python `str.strip()`: drop whitespace from both ends. -/
def strTrim (s : String) : String :=
  String.mk
    (((s.data.dropWhile Char.isWhitespace).reverse.dropWhile
        Char.isWhitespace).reverse)

/-- Constant `SPACE_LABEL` (booking_agent.py line 24). -/
def SPACE_LABEL : String := "Book a Space in a Library"

/-- Table `ALLOWED_LIBRARIES` (lines 25-31): lowercase canonical key paired with
the canonical label, in the insertion order of the source dict (Python dicts
iterate in insertion order). -/
def ALLOWED_LIBRARIES : List (String × String) :=
  [("fbe building", "FBE Building"),
   ("eastern resource centre library", "EASTERN RESOURCE CENTRE LIBRARY"),
   ("baillieu library", "Baillieu Library"),
   ("southbank the hub", "Southbank The Hub"),
   ("werribee learning & teaching building", "Werribee Learning & Teaching Building")]

/-- Table `LIBRARY_SYNONYMS` (lines 33-43), in insertion order — the priority
order of the nickname fallback. -/
def LIBRARY_SYNONYMS : List (String × String) :=
  [("fbe", "FBE Building"),
   ("business and economics", "FBE Building"),
   ("erc", "EASTERN RESOURCE CENTRE LIBRARY"),
   ("eastern resource center", "EASTERN RESOURCE CENTRE LIBRARY"),
   ("baillieu", "Baillieu Library"),
   ("southbank", "Southbank The Hub"),
   ("the hub", "Southbank The Hub"),
   ("werribee", "Werribee Learning & Teaching Building"),
   ("learning and teaching building", "Werribee Learning & Teaching Building")]

/-- The canonical library names (the value set of `ALLOWED_LIBRARIES`,
which is also the value set of `LIBRARY_SYNONYMS`). -/
def CANONICAL_LIBRARIES : List String :=
  ["FBE Building",
   "EASTERN RESOURCE CENTRE LIBRARY",
   "Baillieu Library",
   "Southbank The Hub",
   "Werribee Learning & Teaching Building"]

/-- Function `_normalize_library` (lines 91-101).  `if not raw` catches both `None`
and the empty string; otherwise the input is stripped and lowercased, first
looked up exactly in `ALLOWED_LIBRARIES`, then matched against the first
`LIBRARY_SYNONYMS` entry whose key is a substring of it. -/
def _normalize_library : Option String → Option String
  | Option.none => Option.none
  | some r =>
    if r = "" then Option.none
    else
      let value := strLower (strTrim r)
      match ALLOWED_LIBRARIES.find? (fun kv => kv.fst == value) with
      | some kv => some kv.snd
      | Option.none =>
        (LIBRARY_SYNONYMS.find? (fun kv => strContains value kv.fst)).map
          (fun kv => kv.snd)

/-- Function `_next_weekday` (lines 108-117), with the Melbourne clock made an
explicit `today` parameter.  `base.weekday()` is `base % 7` in the
day-count model, and the Python `%` on a positive modulus agrees with
`Int.emod`. -/
def _next_weekday (today : Nat) (target_weekday : Nat)
    (prefer_next_week : Bool) : Nat :=
  let base := today + (if prefer_next_week then 7 else 0)
  let days_ahead := ((target_weekday : Int) - ((base : Int) % 7)) % 7
  base + (if days_ahead = 0 then 7 else days_ahead).toNat

/-- The `weekdays` table of `_parse_relative_date` (lines 122-130), in
insertion order. -/
def weekdayTable : List (String × Nat) :=
  [("monday", 0), ("tuesday", 1), ("wednesday", 2), ("thursday", 3),
   ("friday", 4), ("saturday", 5), ("sunday", 6)]

/-- Function `_parse_relative_date` (lines 120-140): the first weekday name found in
the lowercased text wins; "next week" anywhere in the text skips one extra
week. -/
def _parse_relative_date (today : Nat) (text : String) : Option Nat :=
  let lowered := strLower text
  match weekdayTable.find? (fun p => strContains lowered p.fst) with
  | Option.none => Option.none
  | some p => some (_next_weekday today p.snd (strContains lowered "next week"))

/-- The JSON-decoded Python values that can reach `_normalize_capacity`
(line 224 passes `payload.get("min_capacity")`).  `float` inputs (truncated
toward zero by the Python `int()`) are folded into `int` after truncation;
containers and other non-convertible values are `other`. -/
inductive PyVal where
  | none : PyVal
  | int : Int → PyVal
  | bool : Bool → PyVal
  | str : String → PyVal
  | other : PyVal
deriving DecidableEq

/-- Behaviour of the Python `int(s)` on a string: strip whitespace, optional sign, then a
nonempty run of digits; anything else raises (modelled as `Option.none`). -/
def pyIntOfString (s : String) : Option Int :=
  let t := (strTrim s).data
  let sign : Int := if t.head? = some (Char.ofNat 45) then -1 else 1
  let digits :=
    if t.head? = some (Char.ofNat 45) || t.head? = some (Char.ofNat 43) then t.drop 1
    else t
  if digits.isEmpty || !(digits.all Char.isDigit) then Option.none
  else some (sign * (digits.foldl (fun n c => n * 10 + (c.toNat - 48)) 0 : Nat))

/-- Behaviour of the Python `int(raw)` over the modelled value domain: succeeds on ints,
bools (`int(True) = 1`) and well-formed numeric strings, raises otherwise. -/
def pyToInt : PyVal → Option Int
  | PyVal.none => Option.none
  | PyVal.int n => some n
  | PyVal.bool b => some (if b then 1 else 0)
  | PyVal.str s => pyIntOfString s
  | PyVal.other => Option.none

/-- Function `_normalize_capacity` (lines 200-204): `max(0, int(raw))`, with any
exception from `int` caught and turned into `0`. -/
def _normalize_capacity (raw : PyVal) : Int :=
  match pyToInt raw with
  | some n => max 0 n
  | Option.none => 0

/-- The `direct_yes` set of `_is_yes` (lines 390-411); a Python set whose
membership test is reproduced by `contains` on the list. -/
def direct_yes : List String :=
  ["yes", "y", "yeah", "yep", "yup", "ok", "okay", "sure", "confirm",
   "fine", "alright", "all good", "sounds good", "looks good", "go ahead",
   "go for it", "do it", "that’s fine", "thats fine", "lock it in"]

/-- The affirming fragments scanned by substring in `_is_yes`
(lines 415-426). -/
def yes_fragments : List String :=
  ["looks good", "sounds good", "all good", "that’s fine", "thats fine",
   "good to me", "happy with that"]

/-- Function `_is_yes` (lines 387-426): strip/lowercase, then exact membership in
`direct_yes` or substring containment of any fragment. -/
def _is_yes (text : String) : Bool :=
  let normalized := strLower (strTrim text)
  direct_yes.contains normalized
    || yes_fragments.any (fun p => strContains normalized p)

/-- Function `_looks_like_booking_intent` (lines 379-384). -/
def _looks_like_booking_intent (text : String) : Bool :=
  let lowered := strLower text
  ["book", "booking", "reserve", "room", "library room", "dibs"].any
    (fun kw => strContains lowered kw)

/-- The shape shared by `BookingSession.fields` (lines 321-329) and by the
validated extractor payload `_validate_payload(...)` (lines 218-229): the
output of the extractor is normalized before it ever reaches the session, so
both sides carry a canonical-shaped record. -/
structure RecordFields where
  space : String
  preferred_library : Option String
  min_capacity : Int
  date : String
  start_time : String
  end_time : String
  event_name : String
deriving DecidableEq

/-- The field names of the record, in the insertion order of the dict. -/
inductive FieldKey where
  | space : FieldKey
  | preferred_library : FieldKey
  | min_capacity : FieldKey
  | date : FieldKey
  | start_time : FieldKey
  | end_time : FieldKey
  | event_name : FieldKey
deriving DecidableEq

/-- The blank-but-valid payload shape `BookingSession.__init__` starts from
(lines 321-329). -/
def initialFields : RecordFields :=
  { space := SPACE_LABEL, preferred_library := Option.none,
    min_capacity := 0, date := "", start_time := "", end_time := "",
    event_name := "" }

/-- The scope check of `update_from_prompt` (line 336):
`allowed is not None and key not in allowed` skips the field, i.e. the
field is touched exactly when `allowed` is `None` or contains the key. -/
def inScope (allowed : Option (List FieldKey)) (k : FieldKey) : Bool :=
  match allowed with
  | Option.none => true
  | some s => s.contains k

/-- One string-typed field of the merge loop (lines 342-344):
`if isinstance(value, str): if value.strip(): self.fields[key] = value.strip()`,
guarded by the scope check. -/
def mergeStrField (sc : Bool) (value old : String) : String :=
  if sc = true ∧ strTrim value ≠ "" then strTrim value else old

/-- The `preferred_library` field of the merge loop: the incoming value is
`None` or a string; a present non-empty string overwrites (lines 342-344),
`None` falls to `elif value:` (line 345) which is falsy and keeps the old
value. -/
def mergeOptStrField (sc : Bool) (value old : Option String) : Option String :=
  match value with
  | some s => if sc = true ∧ strTrim s ≠ "" then some (strTrim s) else old
  | Option.none => old

/-- The `min_capacity` case of the merge loop (lines 339-341):
`if isinstance(value, int) and value > 0`. -/
def mergeIntField (sc : Bool) (value old : Int) : Int :=
  if sc = true ∧ 0 < value then value else old

/-- Method `BookingSession.update_from_prompt` (lines 332-346) with the extractor
result `parsed` passed in.  The Python loop visits each key once, so the
per-field simultaneous update is the same function. -/
def update_from_prompt (f : RecordFields) (parsed : RecordFields)
    (allowed : Option (List FieldKey)) : RecordFields :=
  { space := mergeStrField (inScope allowed FieldKey.space) parsed.space f.space,
    preferred_library :=
      mergeOptStrField (inScope allowed FieldKey.preferred_library)
        parsed.preferred_library f.preferred_library,
    min_capacity :=
      mergeIntField (inScope allowed FieldKey.min_capacity)
        parsed.min_capacity f.min_capacity,
    date := mergeStrField (inScope allowed FieldKey.date) parsed.date f.date,
    start_time :=
      mergeStrField (inScope allowed FieldKey.start_time) parsed.start_time
        f.start_time,
    end_time :=
      mergeStrField (inScope allowed FieldKey.end_time) parsed.end_time
        f.end_time,
    event_name :=
      mergeStrField (inScope allowed FieldKey.event_name) parsed.event_name
        f.event_name }

/-- Python truthiness of the stored `preferred_library` value (line 350):
falsy iff `None` or the empty string. -/
def optStrFalsy : Option String → Bool
  | Option.none => true
  | some s => s == ""

/-- Method `BookingSession.missing_fields` (lines 348-362): the user-facing
descriptions of the unset required fields, in the fixed order of the source. -/
def missing_fields (f : RecordFields) : List String :=
  (if optStrFalsy f.preferred_library then ["library (pick from the allowed list)"] else [])
    ++ (if f.date = "" then ["date (DD/MM/YYYY)"] else [])
    ++ (if f.start_time = "" then ["start time (HH:MM)"] else [])
    ++ (if f.end_time = "" then ["end time (HH:MM)"] else [])
    ++ (if f.min_capacity = 0 then ["capacity (integer)"] else [])
    ++ (if f.event_name = "" then ["event name"] else [])

/-- Method `BookingSession.has_all_fields` (lines 364-365). -/
def has_all_fields (f : RecordFields) : Bool :=
  (missing_fields f).isEmpty

/-- Function `_format_booking_summary` (lines 304-312); `payload()` (lines 367-376)
is the identity on the modelled field record, so it takes the fields
directly.  The Python `or`-defaults replace falsy values. -/
def _format_booking_summary (p : RecordFields) : String :=
  let library := match p.preferred_library with
    | some s => if s = "" then "<?>" else s
    | Option.none => "<?>"
  let date := if p.date = "" then "<?>" else p.date
  let start := if p.start_time = "" then "<?>" else p.start_time
  let endT := if p.end_time = "" then "<?>" else p.end_time
  let capacity := p.min_capacity
  let event := if p.event_name = "" then "Booking" else p.event_name
  event ++ " at " ++ library ++ " on " ++ date ++ " from " ++ start ++ "–"
    ++ endT ++ " for " ++ toString capacity ++ " people."

/-- The correction scope built in `chat_loop` while awaiting confirmation
(lines 517-536): independent keyword checks over the lowered prompt, each
adding its field(s).  The source collects them in a set; the list below
lists each field at most once, and scope queries go through `contains`, so
membership is the same.  The final line in the source,
`if not allowed_fields: allowed_fields = set()`, is a no-op. -/
def correction_scope (prompt : String) : List FieldKey :=
  let lowered := strLower prompt
  (if strContains lowered "event" = true ∨ strContains lowered "name" = true
      ∨ strContains lowered "title" = true then [FieldKey.event_name] else [])
    ++ (if strContains lowered "library" = true then [FieldKey.preferred_library] else [])
    ++ (if strContains lowered "date" = true then [FieldKey.date] else [])
    ++ (if strContains lowered "start" = true ∨ strContains lowered "time" = true
          then [FieldKey.start_time] else [])
    ++ (if strContains lowered "end" = true ∨ strContains lowered "time" = true
          then [FieldKey.end_time] else [])
    ++ (if strContains lowered "capacity" = true ∨ strContains lowered "people" = true
          ∨ strContains lowered "attendees" = true then [FieldKey.min_capacity] else [])

/-- The value stored in one record field (the fields are heterogeneous:
strings, an optional string and an integer). -/
inductive FieldVal where
  | str : String → FieldVal
  | ostr : Option String → FieldVal
  | int : Int → FieldVal
deriving DecidableEq

/-- Project one field of a record, for stating per-field frame facts. -/
def getField (f : RecordFields) : FieldKey → FieldVal
  | FieldKey.space => FieldVal.str f.space
  | FieldKey.preferred_library => FieldVal.ostr f.preferred_library
  | FieldKey.min_capacity => FieldVal.int f.min_capacity
  | FieldKey.date => FieldVal.str f.date
  | FieldKey.start_time => FieldVal.str f.start_time
  | FieldKey.end_time => FieldVal.str f.end_time
  | FieldKey.event_name => FieldVal.str f.event_name

/-- Is the incoming value of field `k` absent or default, i.e. one the
merge guard of `update_from_prompt` rejects (empty string after stripping,
integer not greater than 0, missing enumerated value)? -/
def incomingAbsent (p : RecordFields) : FieldKey → Bool
  | FieldKey.space => strTrim p.space == ""
  | FieldKey.preferred_library =>
    match p.preferred_library with
    | some s => strTrim s == ""
    | Option.none => true
  | FieldKey.min_capacity => decide (p.min_capacity ≤ 0)
  | FieldKey.date => strTrim p.date == ""
  | FieldKey.start_time => strTrim p.start_time == ""
  | FieldKey.end_time => strTrim p.end_time == ""
  | FieldKey.event_name => strTrim p.event_name == ""

/-- One `BookingSession` (lines 315-330): the record plus the
`awaiting_confirmation` flag. -/
structure Session where
  fields : RecordFields
  awaiting_confirmation : Bool
deriving DecidableEq

/-- The `chat_loop` local state (lines 435-438).  In the source
`booking_mode` is true exactly when `session is not None` (they are set
together at lines 451-453 and cleared together at lines 512-513), so the
pair is modelled as one `Option Session`. -/
structure LoopState where
  session : Option Session
  just_entered_booking : Bool
deriving DecidableEq

/-- The result of one iteration of the `while True` loop: either the loop
`break`s, or it continues with a new state having emitted the given
`_agent_print` messages in order. -/
inductive Outcome where
  | terminated : Outcome
  | next : LoopState → List String → Outcome
deriving DecidableEq

/-- Apology printed when the initial extraction fails (lines 456-460). -/
def introApologyMsg (e : String) : String :=
  "I had a bit of trouble reading that automatically, but we can sort it out together. (Error: "
    ++ e ++ ")"

/-- Summary prompt when the opening utterance already completes the record
(lines 465-469). -/
def niceSummaryMsg (f : RecordFields) : String :=
  "Nice, here’s what I’m thinking: " ++ _format_booking_summary f
    ++ " Does that look right? If not, tell me what you\u0027d like to change."

/-- Kick-off prompt on entering booking mode with fields missing
(lines 472-475). -/
def greatLetsBookMsg : String :=
  "Great, let’s book a room. Tell me the library, date, start time, end time, how many people, and what the event is called."

/-- Small-talk help outside booking mode (lines 480-484). -/
def helpMsg : String :=
  "If you want to book a library room, try something like \u0027book Baillieu on 14/12, 2–4pm, 5 people, call it Test 6\u0027."

/-- Printed before launching the browser flow on confirmation (line 503).
The file writes and the browser run themselves are external effects. -/
def startingFlowMsg : String :=
  "Starting browser booking flow to search for this slot..."

/-- Apology printed when extraction fails inside booking mode
(lines 540-543). -/
def mapApologyMsg (e : String) : String :=
  "I couldn’t quite map that to the booking details, but keep going and I’ll adjust what I can. (Error: "
    ++ e ++ ")"

/-- Prompt sent on the first turn after entering booking mode when fields
are still missing (lines 549-552). -/
def kickoffMsg : String :=
  "To kick things off, send me one message with: library, date, start time, end time (HH:MM), capacity, and event name."

/-- Missing-fields nag (lines 558-562). -/
def almostThereMsg (missing : List String) : String :=
  "Almost there — I still need: " ++ String.intercalate ", " missing
    ++ ". Just send those details and I’ll plug them in."

/-- Re-summary while awaiting confirmation (lines 567-573). -/
def updatedVersionMsg (f : RecordFields) : String :=
  "Updated version: " ++ _format_booking_summary f
    ++ " How does that look now? If you’re happy with it, just say \u0027yes\u0027 or anything similar; otherwise tell me what to tweak."

/-- First full summary asking for confirmation (lines 578-584). -/
def summaryAskMsg (f : RecordFields) : String :=
  "Here’s what I’ve put together: " ++ _format_booking_summary f
    ++ " Happy with that? If not, tell me what to change."

/-- One iteration of `chat_loop` (lines 440-585).  `raw` is the line read
from the user (the source strips it on line 442); `exres` is the outcome
of the `booking_agent` extractor call the iteration would make (`ok` the
validated payload, `error` the exception text the `except` clauses catch).
The branch structure follows the source top to bottom: exit check, booking
intent detection, small-talk help, confirmation, scoped update, and the
missing/summary responses. -/
def step (st : LoopState) (raw : String)
    (exres : Except String RecordFields) : Outcome :=
  let prompt := strTrim raw
  if prompt = "" ∨ strLower prompt = "exit" ∨ strLower prompt = "quit" then
    Outcome.terminated
  else
    match st.session with
    | Option.none =>
      if _looks_like_booking_intent prompt = true then
        -- booking_mode = True; session = BookingSession() (lines 451-453),
        -- then try session.update_from_prompt(prompt) (lines 454-460).
        let upd : RecordFields × List String :=
          match exres with
          | Except.ok parsed =>
            (update_from_prompt initialFields parsed Option.none, [])
          | Except.error e => (initialFields, [introApologyMsg e])
        if (missing_fields upd.fst).isEmpty then
          Outcome.next
            { session := some { fields := upd.fst, awaiting_confirmation := true },
              just_entered_booking := st.just_entered_booking }
            (upd.snd ++ [niceSummaryMsg upd.fst])
        else
          Outcome.next
            { session := some { fields := upd.fst, awaiting_confirmation := false },
              just_entered_booking := true }
            (upd.snd ++ [greatLetsBookMsg])
      else
        Outcome.next st [helpMsg]
    | some sess =>
      if sess.awaiting_confirmation = true ∧ _is_yes prompt = true then
        -- Finalize (lines 490-514): persist the payload and launch the
        -- browser flow (external effects), then leave booking mode.
        Outcome.next
          { session := Option.none,
            just_entered_booking := st.just_entered_booking }
          [startingFlowMsg]
      else
        let allowed : Option (List FieldKey) :=
          if sess.awaiting_confirmation = true then some (correction_scope prompt)
          else Option.none
        let upd : Session × List String :=
          match exres with
          | Except.ok parsed =>
            ({ sess with fields := update_from_prompt sess.fields parsed allowed }, [])
          | Except.error e => (sess, [mapApologyMsg e])
        if st.just_entered_booking = true
            ∧ (missing_fields upd.fst.fields).isEmpty = false then
          Outcome.next
            { session := some upd.fst, just_entered_booking := false }
            (upd.snd ++ [kickoffMsg])
        else if (missing_fields upd.fst.fields).isEmpty = false then
          Outcome.next
            { session := some { upd.fst with awaiting_confirmation := false },
              just_entered_booking := false }
            (upd.snd ++ [almostThereMsg (missing_fields upd.fst.fields)])
        else if upd.fst.awaiting_confirmation = true then
          Outcome.next
            { session := some { upd.fst with awaiting_confirmation := true },
              just_entered_booking := false }
            (upd.snd ++ [updatedVersionMsg upd.fst.fields])
        else
          Outcome.next
            { session := some { upd.fst with awaiting_confirmation := true },
              just_entered_booking := false }
            (upd.snd ++ [summaryAskMsg upd.fst.fields])

/-- A concrete complete record, used to instantiate theorems with
hypotheses at checkable inputs. -/
def exampleCompleteFields : RecordFields :=
  { space := "Book a Space in a Library",
    preferred_library := some "Baillieu Library", min_capacity := 5,
    date := "14/12/2025", start_time := "14:00", end_time := "16:00",
    event_name := "Test 6" }

/-- A concrete extractor payload carrying only a date. -/
def exampleDateOnlyParsed : RecordFields :=
  { space := "Book a Space in a Library", preferred_library := Option.none,
    min_capacity := 0, date := "20/12/2025", start_time := "",
    end_time := "", event_name := "" }

/-- A concrete awaiting-confirmation session over the complete record. -/
def exampleAwaitingSession : Session :=
  { fields := exampleCompleteFields, awaiting_confirmation := true }

/-! ### Helper lemmas about the merge -/

theorem mergeStrField_idem (sc : Bool) (v old : String) :
    mergeStrField sc v (mergeStrField sc v old) = mergeStrField sc v old := by
  by_cases h : sc = true ∧ strTrim v ≠ "" <;> simp [mergeStrField, h]

theorem mergeOptStrField_idem (sc : Bool) (v old : Option String) :
    mergeOptStrField sc v (mergeOptStrField sc v old) = mergeOptStrField sc v old := by
  cases v with
  | none => rfl
  | some s => by_cases h : sc = true ∧ strTrim s ≠ "" <;> simp [mergeOptStrField, h]

theorem mergeIntField_idem (sc : Bool) (v old : Int) :
    mergeIntField sc v (mergeIntField sc v old) = mergeIntField sc v old := by
  by_cases h : sc = true ∧ 0 < v <;> simp [mergeIntField, h]

theorem inScope_empty (k : FieldKey) : inScope (some []) k = false := rfl

theorem mergeStrField_ne_empty (sc : Bool) (v : String) {old : String}
    (h : old ≠ "") : mergeStrField sc v old ≠ "" := by
  unfold mergeStrField
  split
  · next hc => exact hc.2
  · exact h

theorem mergeOptStrField_not_falsy (sc : Bool) (v : Option String)
    {old : Option String} (h : optStrFalsy old = false) :
    optStrFalsy (mergeOptStrField sc v old) = false := by
  cases v with
  | none => exact h
  | some s =>
    simp only [mergeOptStrField]
    split
    · next hc => simp [optStrFalsy, hc.2]
    · exact h

theorem mergeIntField_ne_zero (sc : Bool) (v : Int) {old : Int}
    (h : old ≠ 0) : mergeIntField sc v old ≠ 0 := by
  unfold mergeIntField
  split
  · next hc => omega
  · exact h

theorem missing_fields_isEmpty_iff (f : RecordFields) :
    (missing_fields f).isEmpty = true ↔
      (optStrFalsy f.preferred_library = false ∧ f.date ≠ "" ∧ f.start_time ≠ ""
        ∧ f.end_time ≠ "" ∧ f.min_capacity ≠ 0 ∧ f.event_name ≠ "") := by
  unfold missing_fields
  split_ifs <;> simp_all

theorem update_preserves_complete (f p : RecordFields)
    (allowed : Option (List FieldKey))
    (h : (missing_fields f).isEmpty = true) :
    (missing_fields (update_from_prompt f p allowed)).isEmpty = true := by
  rw [missing_fields_isEmpty_iff] at h ⊢
  obtain ⟨h1, h2, h3, h4, h5, h6⟩ := h
  exact ⟨mergeOptStrField_not_falsy _ _ h1, mergeStrField_ne_empty _ _ h2,
    mergeStrField_ne_empty _ _ h3, mergeStrField_ne_empty _ _ h4,
    mergeIntField_ne_zero _ _ h5, mergeStrField_ne_empty _ _ h6⟩

theorem update_frame_scope (f p : RecordFields)
    (allowed : Option (List FieldKey)) (k : FieldKey)
    (hk : inScope allowed k = false) :
    getField (update_from_prompt f p allowed) k = getField f k := by
  cases k <;> cases hp : p.preferred_library <;>
    simp [update_from_prompt, getField, mergeStrField, mergeOptStrField,
      mergeIntField, hp, hk]

theorem update_frame_absent (f p : RecordFields)
    (allowed : Option (List FieldKey)) (k : FieldKey)
    (hk : incomingAbsent p k = true) :
    getField (update_from_prompt f p allowed) k = getField f k := by
  cases k <;> unfold incomingAbsent at hk
  case space | date | start_time | end_time | event_name =>
    rw [beq_iff_eq] at hk
    simp [update_from_prompt, getField, mergeStrField, hk]
  case preferred_library =>
    cases hp : p.preferred_library with
    | none => simp [update_from_prompt, getField, mergeOptStrField, hp]
    | some s =>
      rw [hp, beq_iff_eq] at hk
      simp [update_from_prompt, getField, mergeOptStrField, hp, hk]
  case min_capacity =>
    have hk2 := of_decide_eq_true hk
    simp only [update_from_prompt, getField, mergeIntField]
    rw [if_neg (by omega)]

theorem update_empty_scope (f p : RecordFields) :
    update_from_prompt f p (some []) = f := by
  cases f
  cases hp : p.preferred_library <;>
    simp [update_from_prompt, mergeStrField, mergeOptStrField, mergeIntField,
      inScope_empty, hp]

/-! ### Claims -/

/-- C1: the `BookingSession` merge (`update_from_prompt`) changes only
fields that are in the scope and whose incoming value is present and
non-default (non-empty string after stripping, integer greater than 0,
present enumerated value); every other field keeps its previous value, and
an empty scope makes the merge a no-op on the record. -/
theorem merge_frame_effect (f p : RecordFields)
    (allowed : Option (List FieldKey)) :
    update_from_prompt f p (some []) = f
      ∧ (∀ k, inScope allowed k = false →
          getField (update_from_prompt f p allowed) k = getField f k)
      ∧ (∀ k, incomingAbsent p k = true →
          getField (update_from_prompt f p allowed) k = getField f k) :=
  ⟨update_empty_scope f p,
    fun k hk => update_frame_scope f p allowed k hk,
    fun k hk => update_frame_absent f p allowed k hk⟩

/-- Witness for C1 at a concrete record, scope and parsed payload. -/
theorem merge_frame_effect_witness :
    inScope (some [FieldKey.date]) FieldKey.event_name = false
      ∧ getField
          (update_from_prompt initialFields
            { space := "Book a Space in a Library",
              preferred_library := some "Baillieu Library", min_capacity := 5,
              date := "14/12/2025", start_time := "14:00", end_time := "16:00",
              event_name := "Test 6" }
            (some [FieldKey.date])) FieldKey.event_name
        = getField initialFields FieldKey.event_name :=
  ⟨by decide,
    (merge_frame_effect initialFields
      { space := "Book a Space in a Library",
        preferred_library := some "Baillieu Library", min_capacity := 5,
        date := "14/12/2025", start_time := "14:00", end_time := "16:00",
        event_name := "Test 6" }
      (some [FieldKey.date])).2.1 FieldKey.event_name (by decide)⟩

/-- C2: the merge is idempotent — applying the same parsed record under the
same scope twice yields the same session fields as applying it once. -/
theorem merge_idempotent (f p : RecordFields)
    (allowed : Option (List FieldKey)) :
    update_from_prompt (update_from_prompt f p allowed) p allowed
      = update_from_prompt f p allowed := by
  simp [update_from_prompt, mergeStrField_idem, mergeOptStrField_idem,
    mergeIntField_idem]

/-- C7: `_normalize_capacity` always returns a non-negative integer — it
yields `max 0 n` when the Python `int()` succeeds with `n` and `0` when it
raises — and consequently the merge keeps the `min_capacity` of the session
non-negative. -/
theorem normalize_capacity_nonneg (raw : PyVal) :
    0 ≤ _normalize_capacity raw
      ∧ (pyToInt raw = Option.none → _normalize_capacity raw = 0)
      ∧ (∀ n, pyToInt raw = some n → _normalize_capacity raw = max 0 n)
      ∧ (∀ (f p : RecordFields) (allowed : Option (List FieldKey)),
          0 ≤ f.min_capacity →
            0 ≤ (update_from_prompt f p allowed).min_capacity) := by
  refine ⟨?_, ?_, ?_, ?_⟩
  · unfold _normalize_capacity
    cases pyToInt raw with
    | none => exact le_refl 0
    | some n => exact le_max_left 0 n
  · intro h
    unfold _normalize_capacity
    rw [h]
  · intro n h
    unfold _normalize_capacity
    rw [h]
  · intro f p allowed h
    show 0 ≤ mergeIntField (inScope allowed FieldKey.min_capacity)
      p.min_capacity f.min_capacity
    unfold mergeIntField
    split
    · next hc => omega
    · exact h

/-- Witness for C7: a non-numeric string normalizes to 0, and a merge from
a concrete payload keeps the capacity non-negative. -/
theorem normalize_capacity_nonneg_witness :
    _normalize_capacity (PyVal.str "lots") = 0
      ∧ 0 ≤ (update_from_prompt initialFields
          { space := "Book a Space in a Library",
            preferred_library := Option.none, min_capacity := -3,
            date := "", start_time := "", end_time := "", event_name := "" }
          Option.none).min_capacity :=
  ⟨(normalize_capacity_nonneg (PyVal.str "lots")).2.1 (by decide),
    (normalize_capacity_nonneg PyVal.none).2.2.2 initialFields
      { space := "Book a Space in a Library",
        preferred_library := Option.none, min_capacity := -3,
        date := "", start_time := "", end_time := "", event_name := "" }
      Option.none (by decide)⟩

theorem toNat_ite_bounds (x : Int) (h0 : 0 ≤ x) (h7 : x < 7) :
    1 ≤ (if x = 0 then 7 else x).toNat ∧ (if x = 0 then 7 else x).toNat ≤ 7 := by
  by_cases hx : x = 0
  · simp [hx]
  · simp [hx]
    omega

theorem next_weekday_bounds (today w : Nat) (b : Bool) :
    today + (if b then 8 else 1) ≤ _next_weekday today w b
      ∧ _next_weekday today w b ≤ today + (if b then 14 else 7) := by
  have hb := toNat_ite_bounds
    (((w : Int) - (((today + (if b then 7 else 0) : Nat) : Int) % 7)) % 7)
    (Int.emod_nonneg _ (by decide)) (Int.emod_lt_of_pos _ (by decide))
  have h8 : (if b then (8 : Nat) else 1) = (if b then 7 else 0) + 1 := by
    cases b <;> rfl
  have h14 : (if b then (14 : Nat) else 7) = (if b then 7 else 0) + 7 := by
    cases b <;> rfl
  simp only [_next_weekday, h8, h14]
  omega

/-- C5: the weekday-relative date normalization never returns the date of today;
it returns a date 1 to 7 days ahead of today, or 8 to 14 days ahead when
the text contains the "next week" modifier. -/
theorem relative_date_strictly_future (today : Nat) (text : String) (d : Nat)
    (h : _parse_relative_date today text = some d) :
    d ≠ today ∧ today < d
      ∧ (strContains (strLower text) "next week" = true →
          today + 8 ≤ d ∧ d ≤ today + 14)
      ∧ (strContains (strLower text) "next week" = false →
          today + 1 ≤ d ∧ d ≤ today + 7) := by
  simp only [_parse_relative_date] at h
  cases hf : weekdayTable.find? (fun p => strContains (strLower text) p.fst) with
  | none => rw [hf] at h; cases h
  | some p =>
    rw [hf] at h
    injection h with h2
    subst h2
    have hb := next_weekday_bounds today p.snd
      (strContains (strLower text) "next week")
    by_cases hnw : strContains (strLower text) "next week" = true
    · rw [hnw] at hb ⊢
      simp at hb
      exact ⟨by omega, by omega, fun _ => by omega, fun hx => absurd hx (by decide)⟩
    · have hnw2 : strContains (strLower text) "next week" = false := by
        revert hnw
        cases strContains (strLower text) "next week" <;> simp
      rw [hnw2] at hb ⊢
      simp at hb
      exact ⟨by omega, by omega, fun hx => absurd hx (by decide), fun _ => by omega⟩

/-- Witness for C5 at a fixed clock: "next thursday" on a Monday resolves
three days ahead, within the 1-to-7-day window. -/
theorem relative_date_strictly_future_witness :
    (3 : Nat) ≠ 0 ∧ 0 < 3
      ∧ (strContains (strLower "next thursday") "next week" = true →
          0 + 8 ≤ 3 ∧ 3 ≤ 0 + 14)
      ∧ (strContains (strLower "next thursday") "next week" = false →
          0 + 1 ≤ 3 ∧ 3 ≤ 0 + 7) :=
  relative_date_strictly_future 0 "next thursday" 3 (by decide)

/-- C6: `_normalize_library` returns unset or a canonical name from the
fixed enumerated set, never a raw nickname; a case-insensitive exact match
against the canonical set wins first, otherwise the first nickname in the
priority order of the table whose key is a substring of the lowercased input,
otherwise unset. -/
theorem normalize_library_canonical (raw : Option String) :
    (∀ c, _normalize_library raw = some c → c ∈ CANONICAL_LIBRARIES)
      ∧ (∀ s c, raw = some s → c ∈ CANONICAL_LIBRARIES →
          strLower (strTrim s) = strLower c → _normalize_library raw = some c)
      ∧ (∀ s, raw = some s → s ≠ "" →
          ALLOWED_LIBRARIES.find? (fun kv => kv.fst == strLower (strTrim s))
              = Option.none →
          _normalize_library raw
            = (LIBRARY_SYNONYMS.find?
                  (fun kv => strContains (strLower (strTrim s)) kv.fst)).map
                (fun kv => kv.snd))
      ∧ (_normalize_library Option.none = Option.none
          ∧ _normalize_library (some "") = Option.none) := by
  refine ⟨?_, ?_, ?_, rfl, rfl⟩
  · intro c h
    cases raw with
    | none => cases h
    | some s =>
      simp only [_normalize_library] at h
      by_cases hs : s = ""
      · rw [if_pos hs] at h; cases h
      · rw [if_neg hs] at h
        cases hf : ALLOWED_LIBRARIES.find?
            (fun kv => kv.fst == strLower (strTrim s)) with
        | some kv =>
          rw [hf] at h
          injection h with h2
          subst h2
          have hm := List.mem_of_find?_eq_some hf
          fin_cases hm <;> decide
        | none =>
          rw [hf] at h
          cases hg : LIBRARY_SYNONYMS.find?
              (fun kv => strContains (strLower (strTrim s)) kv.fst) with
          | some kv =>
            rw [hg] at h
            injection h with h2
            subst h2
            have hm := List.mem_of_find?_eq_some hg
            fin_cases hm <;> decide
          | none => rw [hg] at h; cases h
  · intro s c hraw hmem hlow
    subst hraw
    fin_cases hmem <;>
      · first
        | (have hs : ¬ s = "" := by
            intro he
            subst he
            exact absurd hlow (by decide)
           simp only [_normalize_library]
           rw [if_neg hs, show strLower (strTrim s) = _ from hlow]
           decide)
  · intro s hraw hs hf
    subst hraw
    simp only [_normalize_library]
    rw [if_neg hs, hf]

/-- Witness for C6: a padded, differently-cased canonical name maps to the
canonical value. -/
theorem normalize_library_canonical_witness :
    _normalize_library (some "  BAILLIEU LIBRARY ") = some "Baillieu Library" :=
  (normalize_library_canonical (some "  BAILLIEU LIBRARY ")).2.1
    "  BAILLIEU LIBRARY " "Baillieu Library" rfl (by decide) (by decide)

/-- C8: affirmation detection confirms "yes", "Yep", "sounds good" and
"  OK " (case/whitespace-normalized exact match against the fixed set, or
substring containment of an affirming fragment) and rejects "no" and
"change the date". -/
theorem affirmation_matching :
    _is_yes "yes" = true ∧ _is_yes "Yep" = true ∧ _is_yes "sounds good" = true
      ∧ _is_yes "  OK " = true ∧ _is_yes "no" = false
      ∧ _is_yes "change the date" = false := by decide

/-- C9: any utterance whose lowercased text contains "time" puts both the
start-time field and the end-time field into the correction scope. -/
theorem time_keyword_scopes_both (raw : String)
    (h : strContains (strLower raw) "time" = true) :
    FieldKey.start_time ∈ correction_scope raw
      ∧ FieldKey.end_time ∈ correction_scope raw := by
  simp only [correction_scope]
  refine ⟨?_, ?_⟩ <;> simp [List.mem_append, h]

/-- Witness for C9 on a concrete utterance. -/
theorem time_keyword_scopes_both_witness :
    FieldKey.start_time ∈ correction_scope "move the time please"
      ∧ FieldKey.end_time ∈ correction_scope "move the time please" :=
  time_keyword_scopes_both "move the time please" (by decide)

/-- C10: an utterance that is empty after trimming, or whose trimmed text
lowercases to "exit" or "quit", terminates the loop in every state and
before any intent, affirmation or extraction handling (the conclusion holds
for every extractor result). -/
theorem exit_check_first (st : LoopState) (raw : String)
    (exres : Except String RecordFields)
    (h : strTrim raw = "" ∨ strLower (strTrim raw) = "exit"
        ∨ strLower (strTrim raw) = "quit") :
    step st raw exres = Outcome.terminated := by
  simp only [step]
  rw [if_pos h]

/-- Witness for C10: a blank line and a padded mixed-case exit keyword both
terminate. -/
theorem exit_check_first_witness :
    step { session := Option.none, just_entered_booking := false } "   "
        (Except.error "x") = Outcome.terminated
      ∧ step
          { session := some { fields := initialFields, awaiting_confirmation := true },
            just_entered_booking := false }
          " Exit " (Except.ok initialFields) = Outcome.terminated :=
  ⟨exit_check_first _ _ _ (Or.inl (by decide)),
    exit_check_first _ _ _ (Or.inr (Or.inl (by decide)))⟩

theorem step_awaiting_non_yes (sess : Session) (raw : String)
    (parsed : RecordFields) (h1 : strTrim raw ≠ "")
    (h2 : strLower (strTrim raw) ≠ "exit")
    (h3 : strLower (strTrim raw) ≠ "quit")
    (hA : sess.awaiting_confirmation = true)
    (hyes : _is_yes (strTrim raw) = false) :
    step { session := some sess, just_entered_booking := false } raw
        (Except.ok parsed)
      = (if (missing_fields (update_from_prompt sess.fields parsed
              (some (correction_scope (strTrim raw))))).isEmpty then
          Outcome.next
            { session := some
                { fields := update_from_prompt sess.fields parsed
                    (some (correction_scope (strTrim raw))),
                  awaiting_confirmation := true },
              just_entered_booking := false }
            [updatedVersionMsg (update_from_prompt sess.fields parsed
                (some (correction_scope (strTrim raw))))]
        else
          Outcome.next
            { session := some
                { fields := update_from_prompt sess.fields parsed
                    (some (correction_scope (strTrim raw))),
                  awaiting_confirmation := false },
              just_entered_booking := false }
            [almostThereMsg (missing_fields (update_from_prompt sess.fields
                parsed (some (correction_scope (strTrim raw)))))]) := by
  obtain ⟨f, a⟩ := sess
  cases a with
  | false => simp at hA
  | true =>
    cases hm : (missing_fields (update_from_prompt f parsed
        (some (correction_scope (strTrim raw))))).isEmpty with
    | true => simp [step, h1, h2, h3, hyes, hm]
    | false => simp [step, h1, h2, h3, hyes, hm]

/-- C3: while awaiting confirmation, a non-affirmation utterance is merged
under the keyword-derived scope; if missing fields remain the machine drops
to collecting, otherwise it stays awaiting and re-emits the summary.  In
particular "change the date to 20/12" scopes exactly the date field, leaves
every other field untouched, and re-enters the awaiting state. -/
theorem confirmation_correction_turn :
    (∀ (sess : Session) (raw : String) (parsed : RecordFields),
        strTrim raw ≠ "" → strLower (strTrim raw) ≠ "exit" →
        strLower (strTrim raw) ≠ "quit" →
        sess.awaiting_confirmation = true → _is_yes (strTrim raw) = false →
        step { session := some sess, just_entered_booking := false } raw
            (Except.ok parsed)
          = (if (missing_fields (update_from_prompt sess.fields parsed
                  (some (correction_scope (strTrim raw))))).isEmpty then
              Outcome.next
                { session := some
                    { fields := update_from_prompt sess.fields parsed
                        (some (correction_scope (strTrim raw))),
                      awaiting_confirmation := true },
                  just_entered_booking := false }
                [updatedVersionMsg (update_from_prompt sess.fields parsed
                    (some (correction_scope (strTrim raw))))]
            else
              Outcome.next
                { session := some
                    { fields := update_from_prompt sess.fields parsed
                        (some (correction_scope (strTrim raw))),
                      awaiting_confirmation := false },
                  just_entered_booking := false }
                [almostThereMsg (missing_fields (update_from_prompt sess.fields
                    parsed (some (correction_scope (strTrim raw)))))]))
      ∧ correction_scope "change the date to 20/12" = [FieldKey.date]
      ∧ (∀ (sess : Session) (parsed : RecordFields),
          sess.awaiting_confirmation = true →
          (missing_fields sess.fields).isEmpty = true →
          (∀ k, k ≠ FieldKey.date →
            getField (update_from_prompt sess.fields parsed
                (some [FieldKey.date])) k = getField sess.fields k)
            ∧ step { session := some sess, just_entered_booking := false }
                "change the date to 20/12" (Except.ok parsed)
              = Outcome.next
                  { session := some
                      { fields := update_from_prompt sess.fields parsed
                          (some [FieldKey.date]),
                        awaiting_confirmation := true },
                    just_entered_booking := false }
                  [updatedVersionMsg (update_from_prompt sess.fields parsed
                      (some [FieldKey.date]))]) := by
  refine ⟨fun sess raw parsed h1 h2 h3 hA hyes =>
    step_awaiting_non_yes sess raw parsed h1 h2 h3 hA hyes, by decide, ?_⟩
  intro sess parsed hA hc
  constructor
  · intro k hk
    refine update_frame_scope sess.fields parsed (some [FieldKey.date]) k ?_
    cases k <;> first | exact absurd rfl hk | decide
  · have h := step_awaiting_non_yes sess "change the date to 20/12" parsed
      (by decide) (by decide) (by decide) hA (by decide)
    have hscope : correction_scope (strTrim "change the date to 20/12")
        = [FieldKey.date] := by decide
    rw [hscope] at h
    have hm := update_preserves_complete sess.fields parsed
      (some [FieldKey.date]) hc
    rw [if_pos hm] at h
    exact h

/-- Witness for C3 at a concrete complete awaiting session and payload. -/
theorem confirmation_correction_turn_witness :
    getField
        (update_from_prompt exampleCompleteFields exampleDateOnlyParsed
          (some [FieldKey.date])) FieldKey.event_name
      = getField exampleCompleteFields FieldKey.event_name :=
  (confirmation_correction_turn.2.2 exampleAwaitingSession
      exampleDateOnlyParsed rfl (by decide)).1 FieldKey.event_name (by decide)

/-- C4 counterexample: from `Idle` with the booking-intent utterance
"book a room", an extractor failure is caught and the apology with the
error detail is emitted, but the machine still creates a blank session and
advances to the collecting state — the dialogue state does advance, so the
clause "the dialogue state does not advance" of the claim fails in the Idle case. -/
theorem extract_failure_advances_from_idle :
    step { session := Option.none, just_entered_booking := false }
        "book a room" (Except.error "boom")
      = Outcome.next
          { session := some { fields := initialFields, awaiting_confirmation := false },
            just_entered_booking := true }
          [introApologyMsg "boom", greatLetsBookMsg]
      ∧ ({ session := some { fields := initialFields, awaiting_confirmation := false },
            just_entered_booking := true } : LoopState)
          ≠ { session := Option.none, just_entered_booking := false } :=
  ⟨by decide, by decide⟩

/-- C4 (amended): in booking mode — collecting with missing fields, or
awaiting confirmation with the record complete and a non-affirmation
utterance — an extractor failure leaves the record fields and the dialogue
state unchanged and the turn emits the apology carrying the error detail;
the turn loop is total, so it never crashes.  (From Idle with a booking
intent, by contrast, the failure still enters booking mode; see the
counterexample.) -/
theorem extract_failure_in_booking_mode (sess : Session) (jeb : Bool)
    (raw e : String) (h1 : strTrim raw ≠ "")
    (h2 : strLower (strTrim raw) ≠ "exit")
    (h3 : strLower (strTrim raw) ≠ "quit")
    (hyes : sess.awaiting_confirmation = true → _is_yes (strTrim raw) = false)
    (hinv : sess.awaiting_confirmation = true
      ↔ (missing_fields sess.fields).isEmpty = true) :
    ∃ out,
      step { session := some sess, just_entered_booking := jeb } raw
          (Except.error e)
        = Outcome.next { session := some sess, just_entered_booking := false }
            out
      ∧ mapApologyMsg e ∈ out := by
  obtain ⟨f, a⟩ := sess
  cases a with
  | true =>
    have hy := hyes rfl
    have hm := hinv.mp rfl
    refine ⟨[mapApologyMsg e, updatedVersionMsg f], ?_, by simp⟩
    simp [step, h1, h2, h3, hy, hm]
  | false =>
    have hm : (missing_fields f).isEmpty = false := by
      cases hI : (missing_fields f).isEmpty with
      | true =>
        have hfalse := hinv.mpr hI
        simp at hfalse
      | false => rfl
    cases jeb with
    | true =>
      refine ⟨[mapApologyMsg e, kickoffMsg], ?_, by simp⟩
      simp [step, h1, h2, h3, hm]
    | false =>
      refine ⟨[mapApologyMsg e, almostThereMsg (missing_fields f)], ?_, by simp⟩
      simp [step, h1, h2, h3, hm]

/-- Witness for the amended C4 at a concrete awaiting session. -/
theorem extract_failure_in_booking_mode_witness :
    ∃ out,
      step { session := some exampleAwaitingSession,
             just_entered_booking := false }
          "change the date" (Except.error "boom")
        = Outcome.next
            { session := some exampleAwaitingSession,
              just_entered_booking := false } out
      ∧ mapApologyMsg "boom" ∈ out :=
  extract_failure_in_booking_mode exampleAwaitingSession false
    "change the date" "boom" (by decide) (by decide) (by decide) (by decide)
    (by decide)

end BookingAgent
